import Mathlib

/-!
Verification development for the AR+NAR / masked-NAR control flow of the
vall-e1 repository (src/vall_e/models/ar_nar.py, the "v1" model, and
src/vall_e/models/ar_nar_v2.py, the "v2" model).

The definitions below are shallow embeddings of the Python control flow:
tensors of token ids become `List Int` / `List (List Int)` (rows of parallel
RVQ-level values), float-valued sampling parameters become `ℚ`, the opaque
sequence model and the RNG become explicit function parameters ("stubs" /
"oracles"), and code that can raise is embedded as `Option`-returning
functions (`none` = an exception escapes).  Library calls on tensors
(`torch.topk`, `torch.scatter`, `torch.where`, `torch.cat`) are embedded by
their documented elementwise semantics.
-/

/-! ## Python helpers shared by both models -/

/-- `utils.clamp(n, lo, hi) = max(lo, min(n, hi))` from `vall_e/utils`, over `ℤ`
(also redefined locally in `ar_nar.py` lines 25-26). -/
def py_clamp_int (n lo hi : Int) : Int := max lo (min n hi)

/-- the list of text-producing tasks, `ar_nar_v2.py` line 32:
`text_task = [ "stt", "phn", "un-phn" ]`. -/
def text_task : List String := ["stt", "phn", "un-phn"]

/-! ## RVQ-level distribution resolution (claim C3)

`ar_nar.py` lines 79-98 and `ar_nar_v2.py` lines 69-121 build the pool of
candidate RVQ levels from which `random.choice` draws one level per batch
item.  `random.choice(pool)` is uniform over the *pool entries*, so the
probability of a level is its multiplicity in the pool divided by the pool
length. -/

/-- a configured RVQ-level policy is either a string (e.g. `"equal"`) or an
explicit list of levels. -/
inductive RvqPolicy where
  | str (s : String)
  | list (l : List Nat)

/-- the pool built by the `rvq_levels_p == "equal"` branch:
`[ i for i in range( lo, hi ) ]` (`hi` exclusive). -/
def uniform_pool (lo hi : Nat) : List Nat := List.range' lo (hi - lo)

/-- the pool built by the fallback branch:
`sum([[i for _ in range(hi - i)] for i in range( lo, hi ) ], [])`
(`hi` exclusive) — the triangular weighting that favours low levels. -/
def triangular_pool (lo hi : Nat) : List Nat :=
  ((List.range' lo (hi - lo)).map (fun i => List.replicate (hi - i) i)).flatten

/-- the hard-coded pool of the v2-only `"normal"` branch
(`ar_nar_v2.py` lines 110-119). -/
def normal_pool : List Nat :=
  [0, 1, 1, 2, 2, 2, 2, 3, 3, 3, 3, 3, 3, 3, 3, 4, 4, 4, 4, 4, 4, 4, 4, 5, 5, 5, 5, 6, 6, 7]

/-- embeds the Python comparison `rvq_levels_p == "equal"` at the point where it
is executed: by then `rvq_levels_p` has been replaced by a list
(`rvq_levels_p = rvq_levels_p if isinstance(rvq_levels_p, list) else []`,
`ar_nar.py` line 90 / `ar_nar_v2.py` line 102), and in Python a list never
compares equal to a string, so the comparison is `False` for every input. -/
def py_list_eq_str (_l : List Nat) (_s : String) : Bool := false

/-- the RVQ-level pool construction of `ar_nar_v2.py` lines 102-121 (the v1
code, `ar_nar.py` lines 90-98, is identical except that it lacks the
`"normal"` branch).  `lo`/`hiIncl` are the configured inclusive
`quant_level_range`; the code sets `hi = quant_level_range[1] + 1`. -/
def resolve_rvq_levels_p (policy : RvqPolicy) (lo hiIncl : Nat) : List Nat :=
  let p : List Nat :=
    match policy with
    | .list l => l
    | .str _ => []
  if p.isEmpty then
    let hi := hiIncl + 1
    if py_list_eq_str p "equal" then uniform_pool lo hi
    else if py_list_eq_str p "normal" then normal_pool
    else triangular_pool lo hi
  else p

/-- C3: the claim says the string policy `"equal"` draws each item's quant
level uniformly over `[lo, hi]`.  In the code the string has already been
replaced by `[]` when the `== "equal"` comparison runs, so that branch is dead
and the triangular fallback pool is built instead.  With
`quant_level_range = [0, 1]` the pool is `[0, 0, 1]`: level 0 is drawn with
probability 2/3 and level 1 with probability 1/3 — not uniform.  The dead
`"equal"` branch would have produced the uniform pool `[0, 1]`, which is the
evident intent. -/
theorem equal_policy_pool_is_triangular_not_uniform :
    resolve_rvq_levels_p (.str "equal") 0 1 = triangular_pool 0 2 ∧
    resolve_rvq_levels_p (.str "equal") 0 1 = [0, 0, 1] ∧
    uniform_pool 0 2 = [0, 1] ∧
    (resolve_rvq_levels_p (.str "equal") 0 1).count 0 = 2 ∧
    (resolve_rvq_levels_p (.str "equal") 0 1).count 1 = 1 ∧
    (resolve_rvq_levels_p (.str "equal") 0 1).count 0 ≠
      (resolve_rvq_levels_p (.str "equal") 0 1).count 1 := by
  refine ⟨rfl, by decide, by decide, by decide, by decide, by decide⟩

/-! ## CFG logit fusion and its use in the decode loops (claims C4, C5)

`ar_nar_v2.py` imports `cfg_logits` from `vall_e/samplers.py`, which is not
part of the sources at hand, so the fusion itself is modelled from the spec.
The decode-loop dataflow around it (`forward_ar` lines 611-641,
`forward_nar_masked` lines 270-358) is embedded from the source. -/

/-- Modelled from the spec: `vall_e/samplers.py`'s `cfg_logits` is not under
`src/`; per spec §4.2 the fusion is
`fused = unconditional + strength × (conditional − unconditional)` per
position (the optional magnitude `rescale` is not needed by any claim below
and is omitted; a logit set is one `List ℚ`). -/
def cfg_logits (cond null : List ℚ) (strength : ℚ) : List ℚ :=
  List.zipWith (fun c n => n + strength * (c - n)) cond null

/-- the values a single `forward_ar` decode step computes around the sampler
call (`ar_nar_v2.py` lines 611-641). -/
structure ARStepOut where
  /-- value of the local variable `logits` right after the `if cfg_strength > 0`
  block: the fused logits when CFG is enabled, else the conditional logits. -/
  fusedComputed : List ℚ
  /-- value of `logits` after the subsequent
  `logits, state = output.logits, output.state` (line 634), which is what is
  handed to `super().sample`. -/
  samplerLogits : List ℚ
  /-- whether the extra null-conditioned forward pass was invoked. -/
  nullForwardInvoked : Bool

/-- one `forward_ar` decode step's logit dataflow (`ar_nar_v2.py` lines
611-641): `output = super().forward(inputs, ...)` produces `cond`; if
`cfg_strength > 0` a second forward with nulled text/prompt produces `null`
and `logits = cfg_logits(...)`; then line 634 reassigns
`logits, state = output.logits, output.state` unconditionally. -/
def forward_ar_step_logits (cond null : List ℚ) (strength : ℚ) : ARStepOut :=
  { fusedComputed := if 0 < strength then cfg_logits cond null strength else cond
    samplerLogits := cond
    nullForwardInvoked := decide (0 < strength) }

/-- the effective CFG strength used by `forward_nar_masked`
(`ar_nar_v2.py` lines 271-290): `minimum_cfg_strength` defaults to `2.5`,
`cfg_strength` defaults to `minimum_cfg_strength`, and then
`cfg_strength = max( cfg_strength, minimum_cfg_strength )`
("force set CFG because too low / no CFG causes issues").
`none` stands for a sampling kwarg the caller did not supply. -/
def nar_masked_effective_cfg (callerStrength callerMinimum : Option ℚ) : ℚ :=
  let minimum := callerMinimum.getD (5 / 2)
  let strength := callerStrength.getD minimum
  max strength minimum

/-- whether a `forward_nar_masked` denoising step performs the extra
null-conditioned forward pass: guard `if cfg_strength > 0` at line 343,
where `cfg_strength` is the effective strength above. -/
def nar_masked_null_invoked (callerStrength callerMinimum : Option ℚ) : Bool :=
  decide (0 < nar_masked_effective_cfg callerStrength callerMinimum)

/-- the logits a `forward_nar_masked` denoising step hands to the sampler
(`ar_nar_v2.py` lines 342-358): the fused logits when the effective strength
is positive, else the conditional logits (here, unlike `forward_ar`, the
fused value is not overwritten). -/
def nar_masked_step_logits (cond null : List ℚ) (callerStrength callerMinimum : Option ℚ) :
    List ℚ :=
  if 0 < nar_masked_effective_cfg callerStrength callerMinimum then
    cfg_logits cond null (nar_masked_effective_cfg callerStrength callerMinimum)
  else cond

/-- C4: the claim says that with CFG strength > 0 an AR decode step hands the
sampler the fused logits.  At conditional logits `[2]`, null logits `[0]` and
strength `2` the step does invoke the null forward pass and computes the
fused logits `[4]`, but line 634 then overwrites the local `logits` with
`output.logits`, so the sampler receives the raw conditional logits `[2]`,
not the fused `[4]`. -/
theorem ar_step_discards_fused_logits :
    (forward_ar_step_logits [2] [0] 2).nullForwardInvoked = true ∧
    (forward_ar_step_logits [2] [0] 2).fusedComputed = [4] ∧
    (forward_ar_step_logits [2] [0] 2).samplerLogits = [2] ∧
    (forward_ar_step_logits [2] [0] 2).samplerLogits ≠
      (forward_ar_step_logits [2] [0] 2).fusedComputed := by
  have h2 : (0 : ℚ) < 2 := by norm_num
  refine ⟨by simp [forward_ar_step_logits, h2], ?_, rfl, ?_⟩
  · norm_num [forward_ar_step_logits, cfg_logits, h2]
  · norm_num [forward_ar_step_logits, cfg_logits, h2]

/-- C5 counterexample: the claim says that whenever the caller-supplied CFG
strength is ≤ 0 no unconditional forward pass is performed.  In the
masked-NAR loop a caller-supplied strength of `0` is raised to the default
`minimum_cfg_strength = 2.5` by `cfg_strength = max(cfg_strength,
minimum_cfg_strength)`, so the null forward pass is performed anyway. -/
theorem nar_masked_null_pass_despite_zero_strength :
    (0 : ℚ) ≤ 0 ∧
    nar_masked_effective_cfg (some 0) none = 5 / 2 ∧
    nar_masked_null_invoked (some 0) none = true := by
  refine ⟨le_refl 0, ?_, ?_⟩
  · norm_num [nar_masked_effective_cfg]
  · norm_num [nar_masked_null_invoked, nar_masked_effective_cfg]

/-- C5 amended: in the AR decode loop a caller strength ≤ 0 skips the null
forward pass and the sampler receives exactly the conditional logits; in the
masked-NAR loop the null pass is governed by the *effective* strength
`max(caller strength, minimum_cfg_strength)` — it is skipped, and the
conditional logits are used unfused, exactly when that maximum is ≤ 0. -/
theorem cfg_disabled_short_circuit (cond null : List ℚ) (strength : ℚ)
    (callerStrength callerMinimum : Option ℚ) (h : strength ≤ 0) :
    (forward_ar_step_logits cond null strength).nullForwardInvoked = false ∧
    (forward_ar_step_logits cond null strength).samplerLogits = cond ∧
    (nar_masked_null_invoked callerStrength callerMinimum = false ↔
      nar_masked_effective_cfg callerStrength callerMinimum ≤ 0) ∧
    (nar_masked_effective_cfg callerStrength callerMinimum ≤ 0 →
      nar_masked_step_logits cond null callerStrength callerMinimum = cond) := by
  refine ⟨?_, rfl, ?_, ?_⟩
  · simp [forward_ar_step_logits, not_lt.mpr h]
  · simp [nar_masked_null_invoked, not_lt]
  · intro hle
    simp [nar_masked_step_logits, not_lt.mpr hle]

/-- C5 witness: instantiates `cfg_disabled_short_circuit` at conditional
logits `[3]`, null logits `[7]`, caller strength `0` for the AR loop and
caller kwargs `strength = -1`, `minimum = -1` for the masked loop. -/
theorem cfg_disabled_short_circuit_witness :
    (forward_ar_step_logits [3] [7] 0).nullForwardInvoked = false ∧
    (forward_ar_step_logits [3] [7] 0).samplerLogits = [3] ∧
    (nar_masked_null_invoked (some (-1)) (some (-1)) = false ↔
      nar_masked_effective_cfg (some (-1)) (some (-1)) ≤ 0) ∧
    (nar_masked_effective_cfg (some (-1)) (some (-1)) ≤ 0 →
      nar_masked_step_logits [3] [7] (some (-1)) (some (-1)) = [3]) :=
  cfg_disabled_short_circuit [3] [7] 0 (some (-1)) (some (-1)) (le_refl 0)

/-! ## Training-target builder: per-item response construction (claims C1, C9)

`ar_nar.py` lines 100-140 (v1) and `ar_nar_v2.py` lines 124-214 (v2) process
each batch item: clamp the drawn quant level against the levels available in
the item's response/prompt, optionally perturb tokens (v1 only; the v2 copy
is commented out), and append a stop-token row.  A response is a
`List (List Int)`: one row of parallel RVQ-level values per timestep.  The
RNG of the token-dropout error injection is abstracted into boolean oracles
`perturb`/`sign` (for `random.random() < token_dropout_error` and the sign
coin at `ar_nar.py` lines 132-133). -/

/-- v1 token-dropout error injection (`ar_nar.py` lines 125-134): when the
rate is positive and the drawn level `q` lies in the configured RVQ range,
each token at a level `l < q` for which the oracle fires is replaced by
`clamp(token ± 1, 1, 1022)`. -/
def v1_dropout (active : Bool) (perturb sign : Nat → Nat → Bool) (q : Nat)
    (rows : List (List Int)) : List (List Int) :=
  if active then
    (List.range rows.length).map (fun t =>
      (List.range ((rows.getD t []).length)).map (fun l =>
        let v := (rows.getD t []).getD l 0
        if l < q ∧ perturb l t = true then
          py_clamp_int (v + (if sign l t then 1 else -1)) 1 1022
        else v))
  else rows

/-- the v1 per-item response construction (`ar_nar.py` lines 103, 125-139):
trim the response to levels `[0..q]` (line 103, applied before the per-item
loop), apply token dropout, and append the stop row `[[stop_token]]` iff the
*drawn* quant level is 0 (`if quant_level <= 0`, line 137). `tde` is
`token_dropout_error` and `tdr` the inclusive `token_dropout_rvq_levels`
range. -/
def v1_build_resp (stop : Int) (tde : ℚ) (tdr : Nat × Nat)
    (perturb sign : Nat → Nat → Bool) (q : Nat) (resp : List (List Int)) :
    List (List Int) :=
  let trimmed := resp.map (fun row => row.take (q + 1))
  let active := decide (0 < tde) && decide (tdr.1 ≤ q) && decide (q ≤ tdr.2)
  let dropped := v1_dropout active perturb sign q trimmed
  if q = 0 then dropped ++ [[stop]] else dropped

/-- the v2 per-item stop-token append (`ar_nar_v2.py` lines 181-185): iff the
item has no masking timestep (or the model predicts causally) *and* its task
is not a text task, append one row of `resps.shape[-1]` copies of the stop
token (`audio_stop_sequence.repeat((1, resps.shape[-1]))`).  The drawn quant
level is not consulted. -/
def v2_build_resp (stop : Int) (timestep : Option ℚ) (predictCausally : Bool)
    (task : String) (resp : List (List Int)) : List (List Int) :=
  if (timestep.isNone || predictCausally) && !(text_task.contains task) then
    resp ++ [List.replicate (resp.headD []).length stop]
  else resp

/-- the prompt of a batch item as the clamping code sees it: a tensor (only
its level count matters here), a list whose entries are tensors (`some
levels`) or non-tensors such as task strings (`none`), or Python `None`. -/
inductive Proms where
  | null : Proms
  | tensor (levels : Nat) : Proms
  | list (items : List (Option Nat)) : Proms

/-- the v2 quant-level clamp (`ar_nar_v2.py` lines 150-166): compare the
drawn level `q` against the response's level count, then against each
prompt tensor's level count, overwriting `quant_levels[i]` on each hit;
every comparison uses the original `q`, so later hits win. -/
def v2_clamp_quant (q respLevels : Nat) (proms : Proms) : Nat :=
  let q1 := if respLevels ≤ q then respLevels - 1 else q
  match proms with
  | .null => q1
  | .tensor pl => if pl ≤ q then pl - 1 else q1
  | .list items =>
    items.foldl (fun acc it =>
      match it with
      | none => acc
      | some pl => if pl ≤ q then pl - 1 else acc) q1

/-- the v1 quant-level clamp (`ar_nar.py` lines 107-123), embedded as
`Option`: `none` means an exception escapes.  The list branch is
mis-indented: the membership test `if quant_level >= prom.shape[-1]` sits
*after* the `for` loop, so only the final list element is consulted — an
empty list leaves the loop variable unbound (`UnboundLocalError`) and a
non-tensor final element has no `.shape` (`AttributeError`).  This models
the first batch item carrying a list prompt, before the loop variable has
been bound by an earlier item. -/
def v1_clamp_quant (q respLevels : Nat) (proms : Proms) : Option Nat :=
  let q1 := if respLevels ≤ q then respLevels - 1 else q
  match proms with
  | .null => some q1
  | .tensor pl => some (if pl ≤ q then pl - 1 else q1)
  | .list items =>
    match items.getLast? with
    | none => none
    | some none => none
    | some (some pl) => some (if pl ≤ q then pl - 1 else q1)

/-- the v2 per-item pipeline of `forward_train` relevant to claims C1/C9
(`ar_nar_v2.py` lines 128-131, 150-166, 181-188): text tasks force
`quant_levels[i] = 0` before the final loop; the clamp then runs against the
response/prompt level counts; the stop row is appended independently of the
quant level; finally a `"len"` task forces the level to 0.  Returns the
item's final quant level and its constructed response. -/
def v2_process_item (stop : Int) (q : Nat) (timestep : Option ℚ)
    (predictCausally : Bool) (task : String) (resp : List (List Int))
    (proms : Proms) : Nat × List (List Int) :=
  let q0 := if text_task.contains task then 0 else q
  let q1 := v2_clamp_quant q0 (resp.headD []).length proms
  let resp1 := v2_build_resp stop timestep predictCausally task resp
  let q2 := if task = "len" then 0 else q1
  (q2, resp1)

/-- a response ends with exactly one stop-token row: it is nonempty, its last
row is a nonempty all-stop row, and no earlier row contains the stop token. -/
def ends_with_one_stop_row (stop : Int) (rs : List (List Int)) : Prop :=
  rs ≠ [] ∧ rs.getLast?.getD [] ≠ [] ∧ (∀ v ∈ rs.getLast?.getD [], v = stop) ∧
    ∀ row ∈ rs.dropLast, stop ∉ row

/-- token-dropout preserves stop-freeness: every value it writes is clamped
into `[1, 1022]`, below any stop token id, and untouched values come from the
input rows. -/
theorem v1_dropout_no_stop {stop : Int} (hstop : 1022 < stop) (active : Bool)
    (perturb sign : Nat → Nat → Bool) (q : Nat) (rows : List (List Int))
    (hclean : ∀ row ∈ rows, stop ∉ row) :
    ∀ row ∈ v1_dropout active perturb sign q rows, stop ∉ row := by
  intro row hrow hmem
  by_cases ha : active = true
  · simp only [v1_dropout, ha, if_true] at hrow
    rcases List.mem_map.mp hrow with ⟨t, ht, rfl⟩
    have ht' : t < rows.length := List.mem_range.mp ht
    rcases List.mem_map.mp hmem with ⟨l, hl, hval⟩
    have hl' : l < (rows.getD t []).length := List.mem_range.mp hl
    by_cases hcond : l < q ∧ perturb l t = true
    · rw [if_pos hcond] at hval
      have hle : py_clamp_int
          ((rows.getD t []).getD l 0 + (if sign l t then 1 else -1)) 1 1022 ≤ 1022 :=
        max_le (by norm_num) (min_le_right _ _)
      rw [hval] at hle
      exact absurd hle (not_le.mpr hstop)
    · rw [if_neg hcond] at hval
      have hrowmem : rows.getD t [] ∈ rows := by
        rw [List.getD_eq_getElem _ _ ht']
        exact List.getElem_mem ht'
      have hstopmem : stop ∈ rows.getD t [] := by
        rw [← hval, List.getD_eq_getElem _ _ hl']
        exact List.getElem_mem hl'
      exact hclean _ hrowmem hstopmem
  · simp only [v1_dropout, ha, if_false] at hrow
    exact hclean row hrow hmem

/-- token-dropout preserves the number of timesteps. -/
theorem v1_dropout_length (active : Bool) (perturb sign : Nat → Nat → Bool)
    (q : Nat) (rows : List (List Int)) :
    (v1_dropout active perturb sign q rows).length = rows.length := by
  by_cases ha : active = true
  · simp [v1_dropout, ha]
  · simp [v1_dropout, ha]

/-- C1 amended: in the v1 builder a stop row is appended exactly for drawn
quant level 0 — the response then ends with exactly one stop row — and for a
drawn level ≥ 1 no stop row appears and the length is unchanged.  In the v2
builder the append decision never consults the quant level: the stop row is
appended iff the item's masking timestep is unset (or the model predicts
causally) and its task is not a text task; otherwise the response is
returned unchanged.  Hypotheses: the stop token id lies above the dropout
clamp range, the ground-truth response is nonempty with nonempty rows, and
it contains no stop token. -/
theorem stop_row_append_policy (stop : Int) (tde : ℚ) (tdr : Nat × Nat)
    (perturb sign : Nat → Nat → Bool) (q : Nat) (resp : List (List Int))
    (timestep : Option ℚ) (predictCausally : Bool) (task : String) (proms : Proms)
    (hstop : 1022 < stop)
    (hclean : ∀ row ∈ resp, stop ∉ row)
    (hne : resp ≠ [])
    (hrows : ∀ row ∈ resp, row ≠ []) :
    (q = 0 → ends_with_one_stop_row stop (v1_build_resp stop tde tdr perturb sign q resp)) ∧
    (1 ≤ q → (v1_build_resp stop tde tdr perturb sign q resp).length = resp.length ∧
      ∀ row ∈ v1_build_resp stop tde tdr perturb sign q resp, stop ∉ row) ∧
    ((timestep = none ∨ predictCausally = true) ∧ task ∉ text_task →
      ends_with_one_stop_row stop
        (v2_process_item stop q timestep predictCausally task resp proms).2) ∧
    ((timestep ≠ none ∧ predictCausally = false) ∨ task ∈ text_task →
      (v2_process_item stop q timestep predictCausally task resp proms).2 = resp) := by
  have htrim : ∀ k : Nat, ∀ row ∈ resp.map (fun row => row.take k), stop ∉ row := by
    intro k row hrow hmem
    rcases List.mem_map.mp hrow with ⟨r, hr, rfl⟩
    exact hclean r hr (List.mem_of_mem_take hmem)
  refine ⟨?_, ?_, ?_, ?_⟩
  · intro hq
    subst hq
    simp only [v1_build_resp, if_true]
    refine ⟨by simp, ?_, ?_, ?_⟩
    · simp [List.getLast?_concat]
    · simp [List.getLast?_concat]
    · rw [List.dropLast_concat]
      exact v1_dropout_no_stop hstop _ perturb sign 0 _ (htrim 1)
  · intro hq
    have hq0 : q ≠ 0 := by omega
    simp only [v1_build_resp, hq0, if_false]
    refine ⟨by rw [v1_dropout_length]; simp, ?_⟩
    exact v1_dropout_no_stop hstop _ perturb sign q _ (htrim (q + 1))
  · rintro ⟨hts, htask⟩
    have h1 : (timestep.isNone || predictCausally) = true := by
      rcases hts with h | h
      · rw [h]; rfl
      · rw [h, Bool.or_true]
    have h2 : text_task.contains task = false := by
      rcases hc : text_task.contains task with _ | _
      · rfl
      · exact absurd (List.elem_iff.mp hc) htask
    have hcond : ((timestep.isNone || predictCausally) && !(text_task.contains task)) = true := by
      rw [h1, h2]; rfl
    have hshape : (v2_process_item stop q timestep predictCausally task resp proms).2 =
        resp ++ [List.replicate (resp.headD []).length stop] := by
      simp only [v2_process_item, v2_build_resp]
      rw [hcond]
      rfl
    rw [hshape]
    have hheadlen : 0 < (resp.headD []).length := by
      cases resp with
      | nil => exact absurd rfl hne
      | cons r0 rest =>
        rw [List.headD_cons]
        exact List.length_pos.mpr (hrows r0 (List.mem_cons_self r0 rest))
    refine ⟨by simp, ?_, ?_, ?_⟩
    · rw [List.getLast?_concat]
      simp only [Option.getD_some]
      apply List.ne_nil_of_length_pos
      rw [List.length_replicate]
      exact hheadlen
    · rw [List.getLast?_concat]
      simp only [Option.getD_some]
      intro v hv
      exact List.eq_of_mem_replicate hv
    · rw [List.dropLast_concat]
      exact hclean
  · intro hcase
    have hcond : ((timestep.isNone || predictCausally) && !(text_task.contains task)) = false := by
      rcases hcase with ⟨hts, hpc⟩ | htask
      · have h1 : timestep.isNone = false := by
          cases timestep with
          | none => exact absurd rfl hts
          | some t => rfl
        rw [h1, hpc]; rfl
      · have h2 : text_task.contains task = true := List.elem_iff.mpr htask
        rw [h2, Bool.not_true, Bool.and_false]
    have hshape : (v2_process_item stop q timestep predictCausally task resp proms).2 = resp := by
      simp only [v2_process_item, v2_build_resp]
      rw [hcond]
      rfl
    exact hshape

/-- C1 witness: instantiates `stop_row_append_policy` at stop token `1024`,
dropout disabled, drawn quant level `1`, response `[[5, 5]]`, no timestep,
task `"tts"`, no prompt. -/
theorem stop_row_append_policy_witness :
    ((1 : Nat) = 0 → ends_with_one_stop_row 1024
      (v1_build_resp 1024 0 (0, 0) (fun _ _ => false) (fun _ _ => false) 1 [[5, 5]])) ∧
    (1 ≤ (1 : Nat) →
      (v1_build_resp 1024 0 (0, 0) (fun _ _ => false) (fun _ _ => false) 1 [[5, 5]]).length =
        ([[5, 5]] : List (List Int)).length ∧
      ∀ row ∈ v1_build_resp 1024 0 (0, 0) (fun _ _ => false) (fun _ _ => false) 1 [[5, 5]],
        (1024 : Int) ∉ row) ∧
    (((none : Option ℚ) = none ∨ false = true) ∧ "tts" ∉ text_task →
      ends_with_one_stop_row 1024
        (v2_process_item 1024 1 none false "tts" [[5, 5]] Proms.null).2) ∧
    (((none : Option ℚ) ≠ none ∧ false = false) ∨ "tts" ∈ text_task →
      (v2_process_item 1024 1 none false "tts" [[5, 5]] Proms.null).2 = [[5, 5]]) :=
  stop_row_append_policy 1024 0 (0, 0) (fun _ _ => false) (fun _ _ => false) 1 [[5, 5]]
    none false "tts" Proms.null (by decide) (by decide) (by decide) (by decide)

/-- C1 counterexample: a v2 item with drawn (and final) quant level 1, task
`"tts"` and no masking timestep still receives a stop-token row — the v2
append decision (`ar_nar_v2.py` lines 181-185) never consults the quant
level, contradicting "for quant level ≥ 1 no stop-token row is appended". -/
theorem v2_stop_row_despite_quant_level_one :
    (v2_process_item 1024 1 none false "tts" [[5, 5]] Proms.null).1 = 1 ∧
    (v2_process_item 1024 1 none false "tts" [[5, 5]] Proms.null).2 =
      [[5, 5], [1024, 1024]] := by
  decide

/-- C9: the v1 list-prompt clamp (`ar_nar.py` lines 117-123) raises instead
of clamping: the membership check is mis-indented outside the `for` loop, so
an empty prompt list leaves the loop variable unbound (`UnboundLocalError`)
and a non-tensor final element (such as a task string) raises
`AttributeError` — embedded as `none`.  The corrected v2 code
(`ar_nar_v2.py` lines 161-166) is total on the same inputs, and the
tensor/`None` prompt shapes never raise in either version. -/
theorem v1_prom_clamp_raises_on_list_prompts :
    v1_clamp_quant 3 4 (Proms.list []) = none ∧
    v1_clamp_quant 3 4 (Proms.list [none]) = none ∧
    v2_clamp_quant 3 4 (Proms.list []) = 3 ∧
    v2_clamp_quant 3 4 (Proms.list [none]) = 3 ∧
    v1_clamp_quant 3 4 Proms.null = some 3 ∧
    v1_clamp_quant 5 4 Proms.null = some 3 ∧
    v1_clamp_quant 5 4 (Proms.tensor 2) = some 1 ∧
    v2_clamp_quant 5 4 (Proms.list [none, some 2]) = 1 := by
  decide

/-! ## Masked-NAR denoising: remask count and selection (claim C6)

`ar_nar_v2.py` lines 302-316: per scheduled timestep, `noise_p =
math.cos( timestep * math.pi * 0.5 )`, `remask_p = 1 / (max_steps * 2)` when
remasking is enabled, and the positions to (re-)mask are
`score.topk( clamp( int( noise_p * seq_len + remask_p * seq_len ), 1,
seq_len) ).indices` — the `k` *highest* entries of the score array, which
stores inverted confidence (`1 − …`, line 391), i.e. the `k`
lowest-confidence positions. -/

/-- `remask_p = 1.0 / (max_steps * 2) if remasking else 0`
(`ar_nar_v2.py` line 311). -/
def remask_p_model (maxSteps : Nat) (remasking : Bool) : ℚ :=
  if remasking then 1 / (maxSteps * 2) else 0

/-- the number of positions selected for (re-)masking at one denoising step,
`clamp( int( x * seq_len ), 1, seq_len)` for `x = noise_p + remask_p`
(`ar_nar_v2.py` line 313); Python `int()` truncates toward zero, which is the
floor for the nonnegative schedule values. -/
def mask_count (x : ℚ) (len : Nat) : Nat :=
  (py_clamp_int ⌊x * (len : ℚ)⌋ 1 (len : Int)).toNat

/-- the score comparison that orders positions for `torch.topk`: position `i`
ranks at least as high as position `j` when its stored (inverted-confidence)
score is at least as large. -/
def score_le (scores : List ℚ) (i j : Nat) : Bool :=
  decide (scores.getD j 0 ≤ scores.getD i 0)

/-- `score.topk(k).indices` embedded by the documented semantics of
`torch.topk`: the indices of the `k` largest entries of `scores`. -/
def topk_indices (scores : List ℚ) (k : Nat) : List Nat :=
  ((List.range scores.length).mergeSort (score_le scores)).take k

/-- the per-item `masked_indices` computation of `ar_nar_v2.py` line 313. -/
def masked_indices_model (scores : List ℚ) (x : ℚ) : List Nat :=
  topk_indices scores (mask_count x scores.length)

/-- the code's mask count is always between 1 and the canvas length. -/
theorem mask_count_bounds (x : ℚ) (len : Nat) (hlen : 1 ≤ len) :
    1 ≤ mask_count x len ∧ mask_count x len ≤ len := by
  unfold mask_count py_clamp_int
  have h1 : (1 : ℤ) ≤ max 1 (min ⌊x * (len : ℚ)⌋ (len : ℤ)) := le_max_left _ _
  have h2 : max 1 (min ⌊x * (len : ℚ)⌋ (len : ℤ)) ≤ (len : ℤ) :=
    max_le (by exact_mod_cast hlen) (min_le_right _ _)
  omega

/-- `topk_indices` returns exactly `k` distinct in-range indices, and every
unselected position scores no higher than every selected one. -/
theorem topk_indices_spec (scores : List ℚ) (k : Nat) (hk : k ≤ scores.length) :
    (topk_indices scores k).length = k ∧
    (topk_indices scores k).Nodup ∧
    (∀ i ∈ topk_indices scores k, i < scores.length) ∧
    ∀ i ∈ topk_indices scores k, ∀ j, j < scores.length →
      j ∉ topk_indices scores k → scores.getD j 0 ≤ scores.getD i 0 := by
  have htrans : ∀ a b c : Nat, score_le scores a b = true → score_le scores b c = true →
      score_le scores a c = true := by
    intro a b c hab hbc
    exact decide_eq_true (le_trans (of_decide_eq_true hbc) (of_decide_eq_true hab))
  have htotal : ∀ a b : Nat, (score_le scores a b || score_le scores b a) = true := by
    intro a b
    rcases le_total (scores.getD b 0) (scores.getD a 0) with h | h
    · have hab : score_le scores a b = true := decide_eq_true h
      rw [hab, Bool.true_or]
    · have hba : score_le scores b a = true := decide_eq_true h
      rw [hba, Bool.or_true]
  have hperm : ((List.range scores.length).mergeSort (score_le scores)).Perm
      (List.range scores.length) := List.mergeSort_perm _ _
  have hsortedlen : ((List.range scores.length).mergeSort (score_le scores)).length =
      scores.length := by
    rw [List.length_mergeSort, List.length_range]
  have hpw : List.Pairwise (fun a b => score_le scores a b = true)
      ((List.range scores.length).mergeSort (score_le scores)) :=
    List.sorted_mergeSort htrans htotal (List.range scores.length)
  have hpwsplit : List.Pairwise (fun a b => score_le scores a b = true)
      (((List.range scores.length).mergeSort (score_le scores)).take k ++
        ((List.range scores.length).mergeSort (score_le scores)).drop k) := by
    rw [List.take_append_drop]
    exact hpw
  have hcross := (List.pairwise_append.mp hpwsplit).2.2
  refine ⟨?_, ?_, ?_, ?_⟩
  · unfold topk_indices
    rw [List.length_take, hsortedlen]
    omega
  · exact (hperm.symm.nodup (List.nodup_range _)).sublist (List.take_sublist _ _)
  · intro i hi
    exact List.mem_range.mp (hperm.mem_iff.mp (List.mem_of_mem_take hi))
  · intro i hi j hj hjsel
    have hjsorted : j ∈ (List.range scores.length).mergeSort (score_le scores) :=
      hperm.mem_iff.mpr (List.mem_range.mpr hj)
    have hjdrop : j ∈ ((List.range scores.length).mergeSort (score_le scores)).drop k := by
      rcases List.mem_append.mp
          ((List.take_append_drop k
            ((List.range scores.length).mergeSort (score_le scores))).symm ▸ hjsorted) with
        h | h
      · exact absurd h hjsel
      · exact h
    exact of_decide_eq_true (hcross i hi j hjdrop)

/-- C6 counterexample: the claim says exactly `round(noise_p·len +
remask_p·len)` positions are selected.  At the first scheduled timestep
(default `denoise_start = 0.0`) the cosine schedule gives `noise_p = cos 0 =
1` exactly; with the default `max_steps = 25` the remask proportion is
`1/50`, so for a canvas of length 100 the claimed count is `round(102) =
102` (more positions than exist), while the code computes
`clamp(int(102), 1, 100) = 100`.  (The count is also a truncation, not a
rounding: at `x·len = 2.7` the code masks 2 positions, not 3.) -/
theorem mask_count_clamps_and_truncates_not_rounds :
    Real.cos 0 = 1 ∧
    remask_p_model 25 true = 1 / 50 ∧
    mask_count (1 + remask_p_model 25 true) 100 = 100 ∧
    round ((1 + remask_p_model 25 true) * (100 : ℚ)) = 102 ∧
    (mask_count (1 + remask_p_model 25 true) 100 : ℤ) ≠
      round ((1 + remask_p_model 25 true) * (100 : ℚ)) ∧
    mask_count (27 / 100) 10 = 2 ∧
    round ((27 / 100 : ℚ) * 10) = 3 := by
  have hrp : remask_p_model 25 true = 1 / 50 := by
    norm_num [remask_p_model]
  have hmc : mask_count (1 + remask_p_model 25 true) 100 = 100 := by
    rw [hrp]
    unfold mask_count py_clamp_int
    have hfloor : ⌊((1 : ℚ) + 1 / 50) * (((100 : ℕ)) : ℚ)⌋ = (102 : ℤ) := by
      push_cast
      norm_num
    rw [hfloor]
    decide
  have hround : round ((1 + remask_p_model 25 true) * (100 : ℚ)) = 102 := by
    rw [hrp]
    norm_num [round_eq]
  refine ⟨Real.cos_zero, hrp, hmc, hround, ?_, ?_, ?_⟩
  · rw [hmc, hround]
    decide
  · unfold mask_count py_clamp_int
    have hfloor : ⌊((27 : ℚ) / 100) * (((10 : ℕ)) : ℚ)⌋ = (2 : ℤ) := by
      push_cast
      norm_num
    rw [hfloor]
    decide
  · norm_num [round_eq]

/-- C6 amended: at every denoising step the code selects exactly
`clamp(⌊noise_p·len + remask_p·len⌋, 1, len)` positions (Python `int`
truncation clamped into `[1, len]`, not a rounding), and those positions are
the `mask_count` highest entries of the inverted-confidence score array,
i.e. the lowest-confidence positions: the selection has exactly that many
distinct in-range indices and every unselected position scores no higher
than every selected one. -/
theorem masked_indices_select_lowest_confidence (scores : List ℚ) (x : ℚ)
    (hlen : 1 ≤ scores.length) :
    1 ≤ mask_count x scores.length ∧
    mask_count x scores.length ≤ scores.length ∧
    (masked_indices_model scores x).length = mask_count x scores.length ∧
    (masked_indices_model scores x).Nodup ∧
    (∀ i ∈ masked_indices_model scores x, i < scores.length) ∧
    ∀ i ∈ masked_indices_model scores x, ∀ j, j < scores.length →
      j ∉ masked_indices_model scores x → scores.getD j 0 ≤ scores.getD i 0 := by
  obtain ⟨hk1, hkn⟩ := mask_count_bounds x scores.length hlen
  obtain ⟨h1, h2, h3, h4⟩ := topk_indices_spec scores (mask_count x scores.length) hkn
  exact ⟨hk1, hkn, h1, h2, h3, h4⟩

/-- C6 witness: instantiates `masked_indices_select_lowest_confidence` at the
one-position score array `[0]` and schedule value `x = 0`. -/
theorem masked_indices_select_lowest_confidence_witness :
    1 ≤ mask_count 0 ([(0 : ℚ)] : List ℚ).length ∧
    mask_count 0 ([(0 : ℚ)] : List ℚ).length ≤ ([(0 : ℚ)] : List ℚ).length ∧
    (masked_indices_model [(0 : ℚ)] 0).length = mask_count 0 ([(0 : ℚ)] : List ℚ).length ∧
    (masked_indices_model [(0 : ℚ)] 0).Nodup ∧
    (∀ i ∈ masked_indices_model [(0 : ℚ)] 0, i < ([(0 : ℚ)] : List ℚ).length) ∧
    ∀ i ∈ masked_indices_model [(0 : ℚ)] 0, ∀ j, j < ([(0 : ℚ)] : List ℚ).length →
      j ∉ masked_indices_model [(0 : ℚ)] 0 →
        ([(0 : ℚ)] : List ℚ).getD j 0 ≤ ([(0 : ℚ)] : List ℚ).getD i 0 :=
  masked_indices_select_lowest_confidence [(0 : ℚ)] 0 (by decide)

/-! ## Masked-NAR denoising: canvas masking and write-back (claim C7)

`ar_nar_v2.py` line 316 re-masks the canvas:
`resp[:, l].scatter(0, indices, self.mask_token)` for every level `l` (the
same index list at every level); line 318 takes the boolean mask
`is_masked = resps == self.mask_token`; line 387 writes the sampled ids
back per level: `torch.where( masked[..., l], input_ids, resps[..., l] )`.
A canvas is a `List (List Int)`: one row of `n_resp_levels` values per
position; cells are addressed with `getD` defaults that are never reached
under the stated index bounds. -/

/-- the per-level scatter of the mask token into the selected positions
(`ar_nar_v2.py` line 316): every level of a selected row becomes the mask
token, unselected rows are untouched. -/
def apply_mask (maskTok : Int) (indices : List Nat) (canvas : List (List Int)) :
    List (List Int) :=
  (List.range canvas.length).map (fun pos =>
    if pos ∈ indices then List.replicate (canvas.getD pos []).length maskTok
    else canvas.getD pos [])

/-- the per-level write-back (`ar_nar_v2.py` lines 318 and 387):
`torch.where(canvasM == maskTok, sampled, canvasM)` elementwise — sampled
values land exactly where the masked canvas holds the mask token. -/
def nar_write (maskTok : Int) (canvasM sampled : List (List Int)) :
    List (List Int) :=
  (List.range canvasM.length).map (fun pos =>
    (List.range (canvasM.getD pos []).length).map (fun l =>
      if (canvasM.getD pos []).getD l 0 = maskTok then (sampled.getD pos []).getD l 0
      else (canvasM.getD pos []).getD l 0))

/-- one full mask-then-write canvas update of a denoising iteration. -/
def nar_mask_write_step (maskTok : Int) (indices : List Nat)
    (canvas sampled : List (List Int)) : List (List Int) :=
  nar_write maskTok (apply_mask maskTok indices canvas) sampled

/-- cell access of the masked canvas. -/
theorem apply_mask_getD (maskTok : Int) (indices : List Nat)
    (canvas : List (List Int)) (pos : Nat) (hpos : pos < canvas.length) :
    (apply_mask maskTok indices canvas).getD pos [] =
      if pos ∈ indices then List.replicate (canvas.getD pos []).length maskTok
      else canvas.getD pos [] := by
  unfold apply_mask
  rw [List.getD_eq_getElem?_getD, List.getElem?_map, List.getElem?_range hpos]
  rfl

/-- C7: at every denoising iteration and every RVQ level, sampled values are
written exactly into the positions that carry the mask token in that
iteration's canvas (the freshly selected positions, plus any cell still
holding the mask token); every other cell carries its value over unchanged.
In particular the updated canvas keeps the canvas shape, a selected position
receives the sampled value at every level, and an unselected position whose
cell does not hold the mask token is unchanged. -/
theorem nar_write_frame (maskTok : Int) (indices : List Nat)
    (canvas sampled : List (List Int)) (pos l : Nat)
    (hpos : pos < canvas.length) (hl : l < (canvas.getD pos []).length) :
    (nar_mask_write_step maskTok indices canvas sampled).length = canvas.length ∧
    ((nar_mask_write_step maskTok indices canvas sampled).getD pos []).length =
      (canvas.getD pos []).length ∧
    (pos ∈ indices →
      ((nar_mask_write_step maskTok indices canvas sampled).getD pos []).getD l 0 =
        (sampled.getD pos []).getD l 0) ∧
    ((canvas.getD pos []).getD l 0 = maskTok →
      ((nar_mask_write_step maskTok indices canvas sampled).getD pos []).getD l 0 =
        (sampled.getD pos []).getD l 0) ∧
    (pos ∉ indices → (canvas.getD pos []).getD l 0 ≠ maskTok →
      ((nar_mask_write_step maskTok indices canvas sampled).getD pos []).getD l 0 =
        (canvas.getD pos []).getD l 0) := by
  have hmlen : (apply_mask maskTok indices canvas).length = canvas.length := by
    unfold apply_mask
    rw [List.length_map, List.length_range]
  have hposm : pos < (apply_mask maskTok indices canvas).length := by
    rw [hmlen]; exact hpos
  have hrowlen : ((apply_mask maskTok indices canvas).getD pos []).length =
      (canvas.getD pos []).length := by
    rw [apply_mask_getD maskTok indices canvas pos hpos]
    by_cases h : pos ∈ indices
    · rw [if_pos h, List.length_replicate]
    · rw [if_neg h]
  have hstep : ∀ p : Nat, p < canvas.length →
      (nar_mask_write_step maskTok indices canvas sampled).getD p [] =
        (List.range ((apply_mask maskTok indices canvas).getD p []).length).map (fun i =>
          if ((apply_mask maskTok indices canvas).getD p []).getD i 0 = maskTok then
            (sampled.getD p []).getD i 0
          else ((apply_mask maskTok indices canvas).getD p []).getD i 0) := by
    intro p hp
    unfold nar_mask_write_step nar_write
    rw [List.getD_eq_getElem?_getD, List.getElem?_map, List.getElem?_range (hmlen ▸ hp)]
    rfl
  have hcell : ∀ i : Nat, i < (canvas.getD pos []).length →
      ((nar_mask_write_step maskTok indices canvas sampled).getD pos []).getD i 0 =
        if ((apply_mask maskTok indices canvas).getD pos []).getD i 0 = maskTok then
          (sampled.getD pos []).getD i 0
        else ((apply_mask maskTok indices canvas).getD pos []).getD i 0 := by
    intro i hi
    rw [hstep pos hpos, List.getD_eq_getElem?_getD, List.getElem?_map,
      List.getElem?_range (by rw [hrowlen]; exact hi)]
    rfl
  refine ⟨?_, ?_, ?_, ?_, ?_⟩
  · unfold nar_mask_write_step nar_write
    rw [List.length_map, List.length_range, hmlen]
  · rw [hstep pos hpos, List.length_map, List.length_range, hrowlen]
  · intro hsel
    rw [hcell l hl, apply_mask_getD maskTok indices canvas pos hpos, if_pos hsel,
      List.getD_eq_getElem?_getD, List.getElem?_replicate_of_lt hl]
    simp
  · intro hmask
    rw [hcell l hl, apply_mask_getD maskTok indices canvas pos hpos]
    by_cases hsel : pos ∈ indices
    · rw [if_pos hsel, List.getD_eq_getElem?_getD, List.getElem?_replicate_of_lt hl]
      simp
    · rw [if_neg hsel, if_pos hmask]
  · intro hsel hmask
    rw [hcell l hl, apply_mask_getD maskTok indices canvas pos hpos, if_neg hsel,
      if_neg hmask]

/-- C7 witness: instantiates `nar_write_frame` on a two-position, two-level
canvas with mask token `99`, masking position 0 only. -/
theorem nar_write_frame_witness :
    (nar_mask_write_step 99 [0] [[1, 2], [3, 4]] [[7, 8], [5, 6]]).length =
      ([[1, 2], [3, 4]] : List (List Int)).length ∧
    ((nar_mask_write_step 99 [0] [[1, 2], [3, 4]] [[7, 8], [5, 6]]).getD 1 []).length =
      (([[1, 2], [3, 4]] : List (List Int)).getD 1 []).length ∧
    ((1 : Nat) ∈ ([0] : List Nat) →
      ((nar_mask_write_step 99 [0] [[1, 2], [3, 4]] [[7, 8], [5, 6]]).getD 1 []).getD 0 0 =
        (([[7, 8], [5, 6]] : List (List Int)).getD 1 []).getD 0 0) ∧
    ((([[1, 2], [3, 4]] : List (List Int)).getD 1 []).getD 0 0 = 99 →
      ((nar_mask_write_step 99 [0] [[1, 2], [3, 4]] [[7, 8], [5, 6]]).getD 1 []).getD 0 0 =
        (([[7, 8], [5, 6]] : List (List Int)).getD 1 []).getD 0 0) ∧
    ((1 : Nat) ∉ ([0] : List Nat) →
      (([[1, 2], [3, 4]] : List (List Int)).getD 1 []).getD 0 0 ≠ 99 →
      ((nar_mask_write_step 99 [0] [[1, 2], [3, 4]] [[7, 8], [5, 6]]).getD 1 []).getD 0 0 =
        (([[1, 2], [3, 4]] : List (List Int)).getD 1 []).getD 0 0) :=
  nar_write_frame 99 [0] [[1, 2], [3, 4]] [[7, 8], [5, 6]] 1 0 (by decide) (by decide)

/-! ## AR decode loop: length bound and stop-token pruning (claim C2)

`ar_nar_v2.py` `forward_ar` lines 566-670 (the v1 loop, `ar_nar.py` lines
220-315, has the same structure with `max_steps` for `max_duration`): the
loop runs `max_duration // max(1, causal_size)` iterations, each appending
one sampled block of `causal_size` rows per item; an item is flagged stopped
when a sampled block contains the stop token, and the loop breaks once every
item is stopped.  Afterwards each sequence is truncated at the first row
containing the stop token (`(l == audio_stop_token).nonzero()[:, 0].min()`);
when no stop token occurs, the `.min()` of an empty tensor raises and the
`except ... pass` keeps the sequence unpruned.  The opaque sampler is a stub
`stub : step → item → block`. -/

/-- the working decode state: per-item sequences of rows and per-item stop
flags (function-indexed to keep the batch ragged). -/
structure ARLoopState where
  seqs : Nat → List (List Int)
  stopped : Nat → Bool

/-- the initial state: empty sequences, nothing stopped
(`ar_nar_v2.py` lines 566-568). -/
def ar_init : ARLoopState :=
  { seqs := fun _ => [], stopped := fun _ => false }

/-- one decode iteration (`ar_nar_v2.py` lines 636-653): append the sampled
block to every item's sequence, flagging items whose block contains the stop
token. -/
def ar_step (stub : Nat → Nat → List (List Int)) (stopTok : Int) (n : Nat)
    (st : ARLoopState) : ARLoopState :=
  { seqs := fun i => st.seqs i ++ stub n i
    stopped := fun i => st.stopped i || (stub n i).any (fun row => decide (stopTok ∈ row)) }

/-- `stopped.all()` over the batch (`ar_nar_v2.py` line 657). -/
def ar_all_stopped (batch : Nat) (st : ARLoopState) : Bool :=
  (List.range batch).all st.stopped

/-- the decode loop (`ar_nar_v2.py` lines 585-659): run `fuel` iterations
starting at step `n`, breaking after an iteration that leaves every item
stopped. -/
def ar_loop (stub : Nat → Nat → List (List Int)) (stopTok : Int) (batch : Nat) :
    Nat → Nat → ARLoopState → ARLoopState
  | 0, _, st => st
  | fuel + 1, n, st =>
    let st1 := ar_step stub stopTok n st
    if ar_all_stopped batch st1 then st1
    else ar_loop stub stopTok batch fuel (n + 1) st1

/-- the index of the first row containing the stop token —
`(l == audio_stop_token).nonzero()[:, 0].min()` (`ar_nar_v2.py` line 662-665);
`none` when no row contains it (the empty `.min()` raises there). -/
def first_stop_idx (stopTok : Int) : List (List Int) → Option Nat
  | [] => none
  | row :: rest =>
    if stopTok ∈ row then some 0
    else (first_stop_idx stopTok rest).map (· + 1)

/-- the per-item pruning (`ar_nar_v2.py` lines 661-668): truncate at the
first stop row; the `except Exception: pass` branch returns the sequence
unpruned when no stop token occurs. -/
def ar_prune (stopTok : Int) (seq : List (List Int)) : List (List Int) :=
  match first_stop_idx stopTok seq with
  | some k => seq.take k
  | none => seq

/-- the full per-item result of `forward_ar`: decode
`max_duration // max(1, causal_size)` iterations from the empty state, then
prune. -/
def forward_ar_model (stub : Nat → Nat → List (List Int)) (stopTok : Int)
    (batch maxDuration causalSize : Nat) (i : Nat) : List (List Int) :=
  ar_prune stopTok
    ((ar_loop stub stopTok batch (maxDuration / max 1 causalSize) 0 ar_init).seqs i)

/-- no stop row exactly when `first_stop_idx` finds nothing. -/
theorem first_stop_idx_eq_none_iff (stopTok : Int) (seq : List (List Int)) :
    first_stop_idx stopTok seq = none ↔ ∀ row ∈ seq, stopTok ∉ row := by
  induction seq with
  | nil => simp [first_stop_idx]
  | cons row rest ih =>
    by_cases h : stopTok ∈ row
    · simp [first_stop_idx, h]
    · simp [first_stop_idx, h, Option.map_eq_none', ih]

/-- `first_stop_idx` finds the first row containing the stop token. -/
theorem first_stop_idx_spec (stopTok : Int) (seq : List (List Int)) (k : Nat)
    (h : first_stop_idx stopTok seq = some k) :
    k < seq.length ∧ stopTok ∈ seq.getD k [] ∧ ∀ m, m < k → stopTok ∉ seq.getD m [] := by
  induction seq generalizing k with
  | nil => simp [first_stop_idx] at h
  | cons row rest ih =>
    by_cases hrow : stopTok ∈ row
    · rw [first_stop_idx, if_pos hrow] at h
      obtain rfl : (0 : Nat) = k := Option.some.inj h
      exact ⟨Nat.succ_pos _, hrow, fun m hm => absurd hm (Nat.not_lt_zero m)⟩
    · rw [first_stop_idx, if_neg hrow] at h
      rw [Option.map_eq_some'] at h
      obtain ⟨k', hk', rfl⟩ := h
      obtain ⟨h1, h2, h3⟩ := ih k' hk'
      refine ⟨Nat.succ_lt_succ h1, by rw [List.getD_cons_succ]; exact h2, ?_⟩
      intro m hm
      cases m with
      | zero => rw [List.getD_cons_zero]; exact hrow
      | succ m' =>
        rw [List.getD_cons_succ]
        exact h3 m' (Nat.lt_of_succ_lt_succ hm)

/-- pruning never lengthens a sequence. -/
theorem ar_prune_length_le (stopTok : Int) (seq : List (List Int)) :
    (ar_prune stopTok seq).length ≤ seq.length := by
  unfold ar_prune
  cases h : first_stop_idx stopTok seq with
  | none => exact le_refl _
  | some k =>
    rw [List.length_take]
    exact min_le_right _ _

/-- each loop iteration appends one block, so `fuel` iterations append at
most `fuel` blocks. -/
theorem ar_loop_seq_length (stub : Nat → Nat → List (List Int)) (stopTok : Int)
    (batch c : Nat) (hstub : ∀ n i, (stub n i).length = c) (i : Nat) :
    ∀ fuel n st, ((ar_loop stub stopTok batch fuel n st).seqs i).length ≤
      (st.seqs i).length + fuel * c := by
  intro fuel
  induction fuel with
  | zero => intro n st; simp [ar_loop]
  | succ fuel ih =>
    intro n st
    rw [ar_loop]
    have hstep : ((ar_step stub stopTok n st).seqs i).length = (st.seqs i).length + c := by
      unfold ar_step
      rw [List.length_append, hstub n i]
    by_cases hstop : ar_all_stopped batch (ar_step stub stopTok n st) = true
    · rw [if_pos hstop, hstep]
      have : c ≤ (fuel + 1) * c := Nat.le_mul_of_pos_left c (Nat.succ_pos fuel)
      omega
    · rw [if_neg hstop]
      calc ((ar_loop stub stopTok batch fuel (n + 1) (ar_step stub stopTok n st)).seqs i).length
          ≤ ((ar_step stub stopTok n st).seqs i).length + fuel * c := ih (n + 1) _
        _ = (st.seqs i).length + c + fuel * c := by rw [hstep]
        _ ≤ (st.seqs i).length + (fuel + 1) * c := by ring_nf; omega

/-- C2: for every item of an AR decode, the raw decoded sequence and the
returned (pruned) sequence are no longer than the configured maximum number
of steps; when some decoded row contains the stop token, the returned
sequence is the prefix strictly before the first such row (everything from
the first stop-token index onward is discarded); when no row contains the
stop token, the sequence is returned unpruned at full length (the empty
`.min()` exception is swallowed). -/
theorem ar_decode_bounded_and_pruned (stub : Nat → Nat → List (List Int))
    (stopTok : Int) (batch maxDuration causalSize : Nat)
    (hstub : ∀ n i, (stub n i).length = max 1 causalSize) (i : Nat) :
    ((ar_loop stub stopTok batch (maxDuration / max 1 causalSize) 0 ar_init).seqs i).length ≤
      maxDuration ∧
    (forward_ar_model stub stopTok batch maxDuration causalSize i).length ≤ maxDuration ∧
    ((∃ row ∈ (ar_loop stub stopTok batch (maxDuration / max 1 causalSize) 0
        ar_init).seqs i, stopTok ∈ row) →
      ∃ k, forward_ar_model stub stopTok batch maxDuration causalSize i =
          ((ar_loop stub stopTok batch (maxDuration / max 1 causalSize) 0
            ar_init).seqs i).take k ∧
        stopTok ∈ ((ar_loop stub stopTok batch (maxDuration / max 1 causalSize) 0
          ar_init).seqs i).getD k [] ∧
        ∀ m, m < k → stopTok ∉ ((ar_loop stub stopTok batch
          (maxDuration / max 1 causalSize) 0 ar_init).seqs i).getD m []) ∧
    ((∀ row ∈ (ar_loop stub stopTok batch (maxDuration / max 1 causalSize) 0
        ar_init).seqs i, stopTok ∉ row) →
      forward_ar_model stub stopTok batch maxDuration causalSize i =
        (ar_loop stub stopTok batch (maxDuration / max 1 causalSize) 0 ar_init).seqs i) := by
  have hraw : ((ar_loop stub stopTok batch (maxDuration / max 1 causalSize) 0
      ar_init).seqs i).length ≤ maxDuration := by
    have h1 := ar_loop_seq_length stub stopTok batch (max 1 causalSize) hstub i
      (maxDuration / max 1 causalSize) 0 ar_init
    have h2 : (ar_init.seqs i).length = 0 := rfl
    have h3 : maxDuration / max 1 causalSize * max 1 causalSize ≤ maxDuration :=
      Nat.div_mul_le_self _ _
    omega
  refine ⟨hraw, le_trans (ar_prune_length_le _ _) hraw, ?_, ?_⟩
  · intro hex
    cases hidx : first_stop_idx stopTok
        ((ar_loop stub stopTok batch (maxDuration / max 1 causalSize) 0 ar_init).seqs i) with
    | none =>
      obtain ⟨row, hrow, hmem⟩ := hex
      exact absurd hmem ((first_stop_idx_eq_none_iff _ _).mp hidx row hrow)
    | some k =>
      obtain ⟨h1, h2, h3⟩ := first_stop_idx_spec stopTok _ k hidx
      refine ⟨k, ?_, h2, h3⟩
      unfold forward_ar_model ar_prune
      rw [hidx]
  · intro hall
    unfold forward_ar_model ar_prune
    rw [(first_stop_idx_eq_none_iff _ _).mpr hall]

/-- C2 witness: a single-item batch, one row per step, maximum duration 3,
stop token 9, against a stub that emits `5` at step 0 and the stop token
from step 1 on. -/
theorem ar_decode_bounded_and_pruned_witness :
    ((ar_loop (fun n _ => [[if 1 ≤ n then (9 : Int) else 5]]) 9 1 (3 / max 1 1) 0
      ar_init).seqs 0).length ≤ 3 ∧
    (forward_ar_model (fun n _ => [[if 1 ≤ n then (9 : Int) else 5]]) 9 1 3 1 0).length ≤ 3 ∧
    ((∃ row ∈ (ar_loop (fun n _ => [[if 1 ≤ n then (9 : Int) else 5]]) 9 1 (3 / max 1 1) 0
        ar_init).seqs 0, (9 : Int) ∈ row) →
      ∃ k, forward_ar_model (fun n _ => [[if 1 ≤ n then (9 : Int) else 5]]) 9 1 3 1 0 =
          ((ar_loop (fun n _ => [[if 1 ≤ n then (9 : Int) else 5]]) 9 1 (3 / max 1 1) 0
            ar_init).seqs 0).take k ∧
        (9 : Int) ∈ ((ar_loop (fun n _ => [[if 1 ≤ n then (9 : Int) else 5]]) 9 1
          (3 / max 1 1) 0 ar_init).seqs 0).getD k [] ∧
        ∀ m, m < k → (9 : Int) ∉ ((ar_loop (fun n _ => [[if 1 ≤ n then (9 : Int) else 5]])
          9 1 (3 / max 1 1) 0 ar_init).seqs 0).getD m []) ∧
    ((∀ row ∈ (ar_loop (fun n _ => [[if 1 ≤ n then (9 : Int) else 5]]) 9 1 (3 / max 1 1) 0
        ar_init).seqs 0, (9 : Int) ∉ row) →
      forward_ar_model (fun n _ => [[if 1 ≤ n then (9 : Int) else 5]]) 9 1 3 1 0 =
        (ar_loop (fun n _ => [[if 1 ≤ n then (9 : Int) else 5]]) 9 1 (3 / max 1 1) 0
          ar_init).seqs 0) :=
  ar_decode_bounded_and_pruned (fun n _ => [[if 1 ≤ n then (9 : Int) else 5]]) 9 1 3 1
    (fun _ _ => rfl) 0

/-! ## Length-predictor loop (claim C8)

`ar_nar_v2.py` `forward_ar_len` lines 461-513: sequences start as `[0]`,
the loop runs `trange(10)` steps, each greedily argmaxing one token per item
(the opaque model is a stub `step → item → token`), clamping any token above
the stop digit `10` down to `10` *before* the stop check, breaking once all
items have stopped, and finally returning per item
`int("".join(str(token) for token in seq if token != stop_token))`. -/

/-- the sanitize step (`ar_nar_v2.py` lines 496-498): a token above the stop
digit becomes the stop digit. -/
def len_sanitize (t : Nat) : Nat := if 10 < t then 10 else t

/-- working state of the length-predictor loop. -/
structure LenLoopState where
  seqs : Nat → List Nat
  stopped : Nat → Bool

/-- initial state (`ar_nar_v2.py` lines 462-463): every sequence starts as
`[0]`, nothing stopped. -/
def len_init : LenLoopState :=
  { seqs := fun _ => [0], stopped := fun _ => false }

/-- one length-decode step (`ar_nar_v2.py` lines 494-507): sanitize the
sampled token, flag items that produced the stop digit, append. -/
def len_step (stub : Nat → Nat → Nat) (n : Nat) (st : LenLoopState) : LenLoopState :=
  { seqs := fun i => st.seqs i ++ [len_sanitize (stub n i)]
    stopped := fun i => st.stopped i || decide (len_sanitize (stub n i) = 10) }

/-- `stopped.all()` over the batch (`ar_nar_v2.py` line 508). -/
def len_all_stopped (batch : Nat) (st : LenLoopState) : Bool :=
  (List.range batch).all st.stopped

/-- the length-predictor loop, `trange(10)` with early break
(`ar_nar_v2.py` lines 469-510). -/
def len_loop (stub : Nat → Nat → Nat) (batch : Nat) :
    Nat → Nat → LenLoopState → LenLoopState
  | 0, _, st => st
  | fuel + 1, n, st =>
    if len_all_stopped batch (len_step stub n st) then len_step stub n st
    else len_loop stub batch fuel (n + 1) (len_step stub n st)

/-- the value of a decimal digit string read left to right; for digit tokens
≤ 9 this equals Python's `int("".join(str(d) for d in ds))` (the final
conjunct of `forward_ar_len_spec` below discharges the ≤ 9 side
condition). -/
def digits_value (ds : List Nat) : Nat := ds.foldl (fun a d => a * 10 + d) 0

/-- the per-item integer result of `forward_ar_len`
(`ar_nar_v2.py` line 513): drop the stop digits, parse the rest. -/
def forward_ar_len_model (stub : Nat → Nat → Nat) (batch i : Nat) : Nat :=
  digits_value (((len_loop stub batch 10 0 len_init).seqs i).filter
    (fun t => decide (t ≠ 10)))

/-- sanitized tokens never exceed the stop digit. -/
theorem len_sanitize_le (t : Nat) : len_sanitize t ≤ 10 := by
  unfold len_sanitize
  by_cases h : 10 < t
  · rw [if_pos h]
  · rw [if_neg h]
    omega

/-- each loop iteration appends exactly one token per item. -/
theorem len_loop_seq_length (stub : Nat → Nat → Nat) (batch i : Nat) :
    ∀ fuel n st, ((len_loop stub batch fuel n st).seqs i).length ≤
      (st.seqs i).length + fuel := by
  intro fuel
  induction fuel with
  | zero => intro n st; simp [len_loop]
  | succ fuel ih =>
    intro n st
    rw [len_loop]
    have hstep : ((len_step stub n st).seqs i).length = (st.seqs i).length + 1 := by
      simp [len_step]
    by_cases hstop : len_all_stopped batch (len_step stub n st) = true
    · rw [if_pos hstop, hstep]
      omega
    · rw [if_neg hstop]
      have := ih (n + 1) (len_step stub n st)
      omega

/-- every token the loop ever holds is at most the stop digit. -/
theorem len_loop_tokens_le (stub : Nat → Nat → Nat) (batch i : Nat) :
    ∀ fuel n st, (∀ t ∈ st.seqs i, t ≤ 10) →
      ∀ t ∈ (len_loop stub batch fuel n st).seqs i, t ≤ 10 := by
  intro fuel
  induction fuel with
  | zero =>
    intro n st h
    simpa [len_loop] using h
  | succ fuel ih =>
    intro n st h
    have hstep : ∀ t ∈ (len_step stub n st).seqs i, t ≤ 10 := by
      intro t ht
      simp only [len_step] at ht
      rcases List.mem_append.mp ht with h1 | h1
      · exact h t h1
      · rw [List.mem_singleton] at h1
        subst h1
        exact len_sanitize_le _
    rw [len_loop]
    by_cases hstop : len_all_stopped batch (len_step stub n st) = true
    · rw [if_pos hstop]
      exact hstep
    · rw [if_neg hstop]
      exact ih (n + 1) (len_step stub n st) hstep

/-- C8: the length predictor decodes at most 10 steps (so at most 11 held
tokens including the initial `0`); the tokens surviving the stop filter are
single decimal digits, so `digits_value` is Python's
`int("".join(...))`; a first sampled token exceeding the stop digit is
clamped to the stop digit and therefore stops a single-item decode with
result 0; and a stub emitting the digit sequence `[1, 0, stop]` yields the
integer 10. -/
theorem forward_ar_len_spec :
    (∀ stub : Nat → Nat → Nat, ∀ batch i : Nat,
      ((len_loop stub batch 10 0 len_init).seqs i).length ≤ 11) ∧
    (∀ stub : Nat → Nat → Nat, ∀ batch i : Nat,
      ∀ t ∈ ((len_loop stub batch 10 0 len_init).seqs i).filter
        (fun t => decide (t ≠ 10)), t ≤ 9) ∧
    (∀ stub : Nat → Nat → Nat, 10 < stub 0 0 → forward_ar_len_model stub 1 0 = 0) ∧
    forward_ar_len_model (fun n _ => [1, 0].getD n 10) 1 0 = 10 := by
  refine ⟨?_, ?_, ?_, by decide⟩
  · intro stub batch i
    have h := len_loop_seq_length stub batch i 10 0 len_init
    have hinit : (len_init.seqs i).length = 1 := rfl
    omega
  · intro stub batch i t ht
    rw [List.mem_filter] at ht
    obtain ⟨hmem, hne⟩ := ht
    have h10 : t ≤ 10 := by
      refine len_loop_tokens_le stub batch i 10 0 len_init ?_ t hmem
      intro u hu
      simp only [len_init] at hu
      rw [List.mem_singleton] at hu
      subst hu
      omega
    have hne10 : t ≠ 10 := of_decide_eq_true hne
    omega
  · intro stub h
    have hsan : len_sanitize (stub 0 0) = 10 := if_pos h
    have hstop : len_all_stopped 1 (len_step stub 0 len_init) = true := by
      simp [len_all_stopped, len_step, len_init, hsan]
    have hloop : len_loop stub 1 10 0 len_init = len_step stub 0 len_init := by
      rw [show (10 : Nat) = 9 + 1 from rfl, len_loop, if_pos hstop]
    unfold forward_ar_len_model
    rw [hloop]
    simp [len_step, len_init, hsan, digits_value]

/-- C8 witness: instantiates `forward_ar_len_spec` with the constant stub
`11` (a token above the stop digit) and the `[1, 0, stop]` stub. -/
theorem forward_ar_len_spec_witness :
    ((len_loop (fun _ _ => 11) 1 10 0 len_init).seqs 0).length ≤ 11 ∧
    (∀ t ∈ ((len_loop (fun _ _ => 11) 1 10 0 len_init).seqs 0).filter
      (fun t => decide (t ≠ 10)), t ≤ 9) ∧
    forward_ar_len_model (fun _ _ => 11) 1 0 = 0 ∧
    forward_ar_len_model (fun n _ => [1, 0].getD n 10) 1 0 = 10 :=
  ⟨forward_ar_len_spec.1 (fun _ _ => 11) 1 0,
   forward_ar_len_spec.2.1 (fun _ _ => 11) 1 0,
   forward_ar_len_spec.2.2.1 (fun _ _ => 11) (by decide),
   forward_ar_len_spec.2.2.2⟩

/-! ## Mirostat state across batch items (claim C10)

`ar_nar_v2.py` lines 574-576 (identically `ar_nar.py` lines 227-229)
initialize the per-item mirostat records as
`[ {"n": 1024, "tau": ..., "eta": ..., "max_surprise": eta * 2, ...} ] *
batch_size`: Python list repetition copies the *reference*, so every batch
item's entry points at one shared dict.  The per-step mirostat update lives
in `vall_e/samplers.py`, which is not under `src/`; per spec §3 the state is
"mutated every decode step", modelled here as an in-place update through an
item's reference (a heap update at the referenced address). -/

/-- one mirostat state record (spec §3 and `ar_nar_v2.py` line 575). -/
structure MirostatState where
  n : Nat
  tau : ℚ
  eta : ℚ
  max_surprise : ℚ
  error_surprise : ℚ
  running_total_surprise : ℚ

/-- the initial record (`ar_nar_v2.py` line 575). -/
def mirostat_init_record (tau eta : ℚ) : MirostatState :=
  { n := 1024, tau := tau, eta := eta, max_surprise := eta * 2
    error_surprise := 0, running_total_surprise := 0 }

/-- the per-item references created by `[ {...} ] * batch_size`: every item
references the same single record (address 0). -/
def mirostat_init_refs (batchSize : Nat) : List Nat :=
  List.replicate batchSize 0

/-- the initial heap: address 0 (and, vacuously, every address) holds the
initial record. -/
def mirostat_init_heap (tau eta : ℚ) : Nat → MirostatState :=
  fun _ => mirostat_init_record tau eta

/-- the state observed for batch item `i`: the record its reference points
at. -/
def mirostat_observe (refs : List Nat) (heap : Nat → MirostatState) (i : Nat) :
    MirostatState :=
  heap (refs.getD i 0)

/-- Modelled from the spec: the sampler's per-step mirostat update
(`vall_e/samplers.py`, not under `src/`) mutates the state record in place —
spec §3: "mutated every decode step".  An in-place mutation through item
`i`'s reference is a heap update at the referenced address. -/
def mirostat_update_item (refs : List Nat) (heap : Nat → MirostatState) (i : Nat)
    (f : MirostatState → MirostatState) : Nat → MirostatState :=
  fun a => if a = refs.getD i 0 then f (heap a) else heap a

/-- C10 counterexample: with two batch items, an in-place update of item 0's
`max_surprise` to `99` is observed by item 1, whose state was the initial
record with `max_surprise = eta * 2 = 1/5` — the items do not hold
independent state records. -/
theorem mirostat_update_leaks_across_items :
    mirostat_observe (mirostat_init_refs 2) (mirostat_init_heap 1 (1 / 10)) 1 =
      mirostat_init_record 1 (1 / 10) ∧
    (mirostat_observe (mirostat_init_refs 2)
      (mirostat_update_item (mirostat_init_refs 2) (mirostat_init_heap 1 (1 / 10)) 0
        (fun s => { s with max_surprise := 99 })) 1).max_surprise = 99 ∧
    (mirostat_init_record 1 (1 / 10)).max_surprise = 1 / 5 ∧
    (99 : ℚ) ≠ 1 / 5 := by
  refine ⟨rfl, rfl, ?_, ?_⟩
  · show (1 / 10 : ℚ) * 2 = 1 / 5
    norm_num
  · norm_num

/-- C10 amended: all batch items share one mirostat record — the initializer
`[ {...} ] * batch_size` replicates a single reference — so an in-place
decode-step update applied through any item `i` is observed by every item
`j`: each item's observed state after the update is the updated initial
record, whatever `i` and `j` are. -/
theorem mirostat_state_shared_across_items (batchSize i j : Nat) (tau eta : ℚ)
    (f : MirostatState → MirostatState) :
    mirostat_observe (mirostat_init_refs batchSize)
      (mirostat_update_item (mirostat_init_refs batchSize)
        (mirostat_init_heap tau eta) i f) j =
      f (mirostat_init_record tau eta) := by
  have href : ∀ k : Nat, (mirostat_init_refs batchSize).getD k 0 = 0 := by
    intro k
    unfold mirostat_init_refs
    rw [List.getD_eq_getElem?_getD, List.getElem?_replicate]
    by_cases h : k < batchSize
    · rw [if_pos h]
      rfl
    · rw [if_neg h]
      rfl
  unfold mirostat_observe mirostat_update_item
  rw [href j, href i, if_pos rfl]
  rfl
